import Mathlib

/-!
Shallow embedding of `mesa/batchrunner.py` (class `BatchRunner`): parameter
sweep orchestration for step-based simulation models.  Python values are
modelled by `PyVal`, Python dictionaries by insertion-ordered association
lists, Python keyword-call semantics by `callKwargs`, and the exceptions the
module can raise by `PyErr`.
-/

/-- A Python value, as far as the batchrunner manipulates them:
`None`, ints, strings, lists and string-keyed dicts. -/
inductive PyVal where
  | vnone : PyVal
  | int : Int → PyVal
  | str : String → PyVal
  | list : List PyVal → PyVal
  | dict : List (String × PyVal) → PyVal

mutual

/-- Structural (Python `==` on these shapes) equality test for `PyVal`. -/
def PyVal.decEq : (a b : PyVal) → Decidable (a = b)
  | .vnone, .vnone => .isTrue rfl
  | .vnone, .int _ => .isFalse (fun h => PyVal.noConfusion h)
  | .vnone, .str _ => .isFalse (fun h => PyVal.noConfusion h)
  | .vnone, .list _ => .isFalse (fun h => PyVal.noConfusion h)
  | .vnone, .dict _ => .isFalse (fun h => PyVal.noConfusion h)
  | .int _, .vnone => .isFalse (fun h => PyVal.noConfusion h)
  | .int m, .int n =>
      if h : m = n then .isTrue (by rw [h]) else
        .isFalse (fun hc => h (by cases hc; rfl))
  | .int _, .str _ => .isFalse (fun h => PyVal.noConfusion h)
  | .int _, .list _ => .isFalse (fun h => PyVal.noConfusion h)
  | .int _, .dict _ => .isFalse (fun h => PyVal.noConfusion h)
  | .str _, .vnone => .isFalse (fun h => PyVal.noConfusion h)
  | .str _, .int _ => .isFalse (fun h => PyVal.noConfusion h)
  | .str s, .str t =>
      if h : s = t then .isTrue (by rw [h]) else
        .isFalse (fun hc => h (by cases hc; rfl))
  | .str _, .list _ => .isFalse (fun h => PyVal.noConfusion h)
  | .str _, .dict _ => .isFalse (fun h => PyVal.noConfusion h)
  | .list _, .vnone => .isFalse (fun h => PyVal.noConfusion h)
  | .list _, .int _ => .isFalse (fun h => PyVal.noConfusion h)
  | .list _, .str _ => .isFalse (fun h => PyVal.noConfusion h)
  | .list xs, .list ys =>
      match PyVal.decEqList xs ys with
      | .isTrue h => .isTrue (by rw [h])
      | .isFalse h => .isFalse (fun hc => h (by cases hc; rfl))
  | .list _, .dict _ => .isFalse (fun h => PyVal.noConfusion h)
  | .dict _, .vnone => .isFalse (fun h => PyVal.noConfusion h)
  | .dict _, .int _ => .isFalse (fun h => PyVal.noConfusion h)
  | .dict _, .str _ => .isFalse (fun h => PyVal.noConfusion h)
  | .dict _, .list _ => .isFalse (fun h => PyVal.noConfusion h)
  | .dict xs, .dict ys =>
      match PyVal.decEqDict xs ys with
      | .isTrue h => .isTrue (by rw [h])
      | .isFalse h => .isFalse (fun hc => h (by cases hc; rfl))

/-- Equality test for lists of `PyVal`. -/
def PyVal.decEqList : (xs ys : List PyVal) → Decidable (xs = ys)
  | [], [] => .isTrue rfl
  | [], _ :: _ => .isFalse (fun h => List.noConfusion h)
  | _ :: _, [] => .isFalse (fun h => List.noConfusion h)
  | x :: xs, y :: ys =>
      match PyVal.decEq x y, PyVal.decEqList xs ys with
      | .isTrue h1, .isTrue h2 => .isTrue (by rw [h1, h2])
      | .isFalse h1, _ => .isFalse (fun hc => h1 (by cases hc; rfl))
      | _, .isFalse h2 => .isFalse (fun hc => h2 (by cases hc; rfl))

/-- Equality test for string-keyed association lists of `PyVal`. -/
def PyVal.decEqDict :
    (xs ys : List (String × PyVal)) → Decidable (xs = ys)
  | [], [] => .isTrue rfl
  | [], _ :: _ => .isFalse (fun h => List.noConfusion h)
  | _ :: _, [] => .isFalse (fun h => List.noConfusion h)
  | (k, x) :: xs, (l, y) :: ys =>
      match String.decEq k l, PyVal.decEq x y, PyVal.decEqDict xs ys with
      | .isTrue h0, .isTrue h1, .isTrue h2 => .isTrue (by rw [h0, h1, h2])
      | .isFalse h0, _, _ =>
          .isFalse (fun hc => h0 (by cases hc; rfl))
      | _, .isFalse h1, _ =>
          .isFalse (fun hc => h1 (by cases hc; rfl))
      | _, _, .isFalse h2 =>
          .isFalse (fun hc => h2 (by cases hc; rfl))

end

instance : DecidableEq PyVal := PyVal.decEq

/-- Exceptions relevant to `batchrunner.py`: `TypeError` from a mismatched
call, the `ValueError` raised at the end of `_try_to_init_model` (carrying
the variable and fixed parameters its message is formatted from), and an
arbitrary exception escaping a caller-supplied reporter. -/
inductive PyErr where
  | typeError : PyErr
  | valueError : List (String × PyVal) → List (String × PyVal) → PyErr
  | reporterFailure : String → PyErr
deriving DecidableEq

/-- Dictionary lookup (`d[k]` / `d.get(k)`). -/
def alookup {κ β : Type} [DecidableEq κ] (k : κ) : List (κ × β) → Option β
  | [] => none
  | kv :: rest => if kv.1 = k then some kv.2 else alookup k rest

/-- Dictionary single-key assignment `d[k] = v`: overwrites in place when the
key is present (keeping its position), appends otherwise. -/
def ainsert {κ β : Type} [DecidableEq κ] (d : List (κ × β)) (k : κ) (v : β) :
    List (κ × β) :=
  if d.any (fun kv => kv.1 = k) then
    d.map (fun kv => if kv.1 = k then (k, v) else kv)
  else d ++ [(k, v)]

/-- Python `d.update(other)`: assign every key of `other` into `d` in order. -/
def dupdate {κ β : Type} [DecidableEq κ] (d other : List (κ × β)) :
    List (κ × β) :=
  other.foldl (fun acc kv => ainsert acc kv.1 kv.2) d

/-- `dict(zip(names, values))` (truncating to the shorter list). -/
def zipToDict {κ β : Type} [DecidableEq κ] (names : List κ) (values : List β) :
    List (κ × β) :=
  dupdate [] (names.zip values)

/-- The kind of a parameter in a Python signature, as `inspect` reports it:
a plain named parameter, `*args`, a keyword-only parameter, or `kwargs`
preceded by two stars. -/
inductive ParamKind where
  | positionalOrKeyword : ParamKind
  | varPositional : ParamKind
  | keywordOnly : ParamKind
  | varKeyword : ParamKind
deriving DecidableEq

/-- One declared parameter of a constructor signature. -/
structure Param where
  name : String
  kind : ParamKind
  hasDefault : Bool
deriving DecidableEq

/-- Whether the parameter can be bound by a keyword argument of its name. -/
def Param.isNamed (p : Param) : Bool :=
  p.kind == ParamKind.positionalOrKeyword || p.kind == ParamKind.keywordOnly

/-- CPython semantics of the call `cls(**kwargs)` against the declared
signature `sig` (the parameters of `__init__` after `self`).  Returns `none`
for a `TypeError` (an unexpected keyword with no `varKeyword` parameter to
absorb it, or a required named parameter left unbound), otherwise the bound
environment: each named parameter that received a keyword, in declaration
order, followed by the `varKeyword` parameter bound to the dict of leftover
keywords. -/
def callKwargs (sig : List Param) (kwargs : List (String × PyVal)) :
    Option (List (String × PyVal)) :=
  let named := sig.filter Param.isNamed
  let namedNames := named.map Param.name
  let leftovers := kwargs.filter (fun kv => !namedNames.contains kv.1)
  let varKw := sig.find? (fun p => p.kind == ParamKind.varKeyword)
  if !leftovers.isEmpty && varKw.isNone then none
  else if named.any (fun p => !p.hasDefault && (alookup p.name kwargs).isNone)
  then none
  else some
    ((named.filterMap (fun p => (alookup p.name kwargs).map ((p.name, ·)))) ++
      (match varKw with
       | some p => [(p.name, PyVal.dict leftovers)]
       | none => []))

/-- Which `PyVal`s answer `hasattr(val, "__iter__")`. -/
def hasIterAttr : PyVal → Bool
  | .str _ => true
  | .list _ => true
  | .dict _ => true
  | .vnone => false
  | .int _ => false

/-- `isinstance(val, str)`. -/
def isStrInstance : PyVal → Bool
  | .str _ => true
  | _ => false

/-- `BatchRunner.make_iterable`: return the value itself when it is an
iterable other than a string, otherwise wrap it in a one-element list. -/
def makeIterable (val : PyVal) : PyVal :=
  if hasIterAttr val && !isStrInstance val then val else PyVal.list [val]

/-- The elements produced by iterating a `PyVal` (a list yields its
elements, a string its characters, a dict its keys; non-iterables yield
nothing — they are never iterated by the batchrunner, which has passed every
candidate through `makeIterable` first). -/
def pyIterElems : PyVal → List PyVal
  | .list xs => xs
  | .str s => s.toList.map (fun c => PyVal.str (String.mk [c]))
  | .dict kvs => kvs.map (fun kv => PyVal.str kv.1)
  | .vnone => []
  | .int _ => []

/-- `itertools.product(*pools)`, by its documented equivalent: start from
the singleton empty tuple and extend by each pool in turn. -/
def cartProduct {β : Type} (pools : List (List β)) : List (List β) :=
  pools.foldl
    (fun acc pool => acc.flatMap (fun tup => pool.map (fun y => tup ++ [y])))
    [[]]

/-- The conventional recursive Cartesian product, written from the spec's
description: the first parameter varies slowest, the last fastest. -/
def prodSpec {β : Type} : List (List β) → List (List β)
  | [] => [[]]
  | pool :: rest => pool.flatMap (fun y => (prodSpec rest).map (fun tup => y :: tup))

/-- The capabilities `BatchRunner` requires of a model: a `running` flag, a
step counter reachable through the schedule, a `step()` operation, and the
schedule's agents, each with a `unique_id`.  `σ` is the model state, `α` the
agent type. -/
structure PModel (σ α : Type) where
  running : σ → Bool
  steps : σ → Nat
  step : σ → σ
  agents : σ → List α
  uniqueId : α → PyVal

/-- The `while` loop of `BatchRunner.run_model`, with explicit fuel: step as
long as the model is running and its step counter is below `maxSteps`. -/
def runModelAux {σ α : Type} (pm : PModel σ α) (maxSteps : Nat) :
    Nat → σ → σ
  | 0, s => s
  | fuel + 1, s =>
      if pm.running s = true ∧ pm.steps s < maxSteps then
        runModelAux pm maxSteps fuel (pm.step s)
      else s

/-- `BatchRunner.run_model`: for models whose `step` advances the counter by
one, `maxSteps` rounds of fuel always reach the loop's exit condition. -/
def runModel {σ α : Type} (pm : PModel σ α) (maxSteps : Nat) (s : σ) : σ :=
  runModelAux pm maxSteps maxSteps s

/-- Which branch of `_try_to_init_model` produced the outcome: the
no-fixed-parameters branch, the direct keyword-expansion attempt, the
introspection fallback, or the closing failure branch. -/
inductive InitPath where
  | noFixed : InitPath
  | direct : InitPath
  | fallback : InitPath
  | failed : InitPath
deriving DecidableEq

/-- The state of a `BatchRunner` as set up by `__init__`: the model class
(its constructor signature, a builder from a bound environment to a model
state, and the runtime behaviour `pm`), the raw `variable_parameters`
argument, `fixed_parameters or {}`, `iterations`, `max_steps` and the two
reporter dictionaries. -/
structure BatchRunner (σ α : Type) where
  pm : PModel σ α
  modelSig : List Param
  mkModel : List (String × PyVal) → σ
  variableParameters : List (String × PyVal)
  fixedValues : List (String × PyVal)
  iterations : Nat
  maxSteps : Nat
  modelReporters : List (String × (σ → Except PyErr PyVal))
  agentReporters : List (String × (α → Except PyErr PyVal))

/-- `self.parameter_values`: each variable parameter's value passed through
`make_iterable`. -/
def BatchRunner.parameterValues {σ α : Type} (br : BatchRunner σ α) :
    List (String × PyVal) :=
  br.variableParameters.map (fun kv => (kv.1, makeIterable kv.2))

/-- `param_ranges` as iterated by `itertools.product`: the element sequences
of the normalized parameter values. -/
def BatchRunner.paramRanges {σ α : Type} (br : BatchRunner σ α) :
    List (List PyVal) :=
  br.parameterValues.map (fun kv => pyIterElems kv.2)

/-- The `self` parameter, present in `inspect.signature(cls.__init__)`. -/
def selfParam : Param :=
  ⟨"self", ParamKind.positionalOrKeyword, false⟩

/-- `list(sig.parameters.values())[-1]` for `__init__`: the last declared
parameter, which is `self` when the constructor declares nothing else. -/
def lastSigParam (sig : List Param) : Param :=
  sig.getLastD selfParam

/-- `BatchRunner._try_to_init_model`, instrumented with the branch taken.
With no fixed parameters, call with the variable parameters alone.
Otherwise first try the union (fixed values overriding on collision); on a
`TypeError`, inspect the last declared parameter, and if it is
positional-or-keyword or var-positional, call again with the fixed values
as one dict bound to that parameter's name; any `TypeError` of this second
call propagates.  If the last parameter is of neither kind, raise
`ValueError` over the variable and fixed parameters. -/
def tryToInitModelTraced {σ α : Type} (br : BatchRunner σ α)
    (variableParams : List (String × PyVal)) : Except PyErr σ × InitPath :=
  if br.fixedValues.isEmpty then
    (match callKwargs br.modelSig variableParams with
     | some env => Except.ok (br.mkModel env)
     | none => Except.error PyErr.typeError,
     InitPath.noFixed)
  else
    match callKwargs br.modelSig (dupdate variableParams br.fixedValues) with
    | some env => (Except.ok (br.mkModel env), InitPath.direct)
    | none =>
        let lastArg := lastSigParam (selfParam :: br.modelSig)
        if lastArg.kind = ParamKind.positionalOrKeyword ∨
            lastArg.kind = ParamKind.varPositional then
          (match callKwargs br.modelSig
              (ainsert variableParams lastArg.name
                (PyVal.dict br.fixedValues)) with
           | some env => Except.ok (br.mkModel env)
           | none => Except.error PyErr.typeError,
           InitPath.fallback)
        else
          (Except.error (PyErr.valueError variableParams br.fixedValues),
           InitPath.failed)

/-- `BatchRunner._try_to_init_model` (outcome alone). -/
def tryToInitModel {σ α : Type} (br : BatchRunner σ α)
    (variableParams : List (String × PyVal)) : Except PyErr σ :=
  (tryToInitModelTraced br variableParams).1

/-- The reporter loops of `collect_model_vars` / the per-agent record of
`collect_agent_vars`: run each reporter in order against `x`, accumulating
`acc[var] = reporter(x)`; the first exception propagates. -/
def collectVarsAux {τ : Type} (x : τ) :
    List (String × (τ → Except PyErr PyVal)) → List (String × PyVal) →
    Except PyErr (List (String × PyVal))
  | [], acc => Except.ok acc
  | (name, f) :: rest, acc =>
      match f x with
      | Except.error e => Except.error e
      | Except.ok v => collectVarsAux x rest (ainsert acc name v)

/-- `BatchRunner.collect_model_vars`. -/
def collectModelVars {σ α : Type} (br : BatchRunner σ α) (m : σ) :
    Except PyErr (List (String × PyVal)) :=
  collectVarsAux m br.modelReporters []

/-- The agent loop of `collect_agent_vars`: one record per agent of the
schedule, keyed by `unique_id`. -/
def collectAgentVarsAux {σ α : Type} (br : BatchRunner σ α) :
    List α → List (PyVal × List (String × PyVal)) →
    Except PyErr (List (PyVal × List (String × PyVal)))
  | [], acc => Except.ok acc
  | a :: rest, acc =>
      match collectVarsAux a br.agentReporters [] with
      | Except.error e => Except.error e
      | Except.ok record =>
          collectAgentVarsAux br rest (ainsert acc (br.pm.uniqueId a) record)

/-- `BatchRunner.collect_agent_vars`. -/
def collectAgentVars {σ α : Type} (br : BatchRunner σ α) (m : σ) :
    Except PyErr (List (PyVal × List (String × PyVal))) :=
  collectAgentVarsAux br (br.pm.agents m) []

/-- The two result stores, `self.model_vars` and `self.agent_vars`, as
insertion-ordered dicts keyed by the record-key tuples. -/
structure Stores where
  modelVars : List (List PyVal × List (String × PyVal))
  agentVars : List (List PyVal × List (String × PyVal))
deriving DecidableEq

/-- The `if self.model_reporters:` block of one `run_all` iteration: store
the collected model variables under `tuple(list(param_values) + [run_count])`,
or report the escaping exception with the stores as mutated so far. -/
def collectModelStep {σ α : Type} (br : BatchRunner σ α)
    (paramValues : List PyVal) (m : σ) (runCount : Nat) (st : Stores) :
    Stores × Option PyErr :=
  if br.modelReporters.isEmpty then (st, none)
  else
    match collectModelVars br m with
    | Except.error e => (st, some e)
    | Except.ok mv =>
        ({ st with modelVars :=
            ainsert st.modelVars (paramValues ++ [PyVal.int runCount]) mv },
         none)

/-- The `if self.agent_reporters:` block of one `run_all` iteration: store
each agent's record under
`tuple(list(param_values) + [run_count, agent_id])`. -/
def collectAgentStep {σ α : Type} (br : BatchRunner σ α)
    (paramValues : List PyVal) (m : σ) (runCount : Nat) (st : Stores) :
    Stores × Option PyErr :=
  if br.agentReporters.isEmpty then (st, none)
  else
    match collectAgentVars br m with
    | Except.error e => (st, some e)
    | Except.ok avs =>
        ({ st with agentVars :=
            (avs.foldl
              (fun acc kv =>
                ainsert acc (paramValues ++ [PyVal.int runCount, kv.1]) kv.2)
              st.agentVars) },
         none)

/-- The `for _ in range(self.iterations)` loop of `run_all`: run the (shared,
never reconstructed) model to completion, collect model-level then
agent-level results, increment `run_count`, or stop at the first escaping
exception with the stores as mutated so far. -/
def innerLoop {σ α : Type} (br : BatchRunner σ α) (paramValues : List PyVal) :
    Nat → σ → Nat → Stores → σ × Nat × Stores × Option PyErr
  | 0, m, runCount, st => (m, runCount, st, none)
  | k + 1, m, runCount, st =>
      let m2 := runModel br.pm br.maxSteps m
      match collectModelStep br paramValues m2 runCount st with
      | (st1, some e) => (m2, runCount, st1, some e)
      | (st1, none) =>
          match collectAgentStep br paramValues m2 runCount st1 with
          | (st2, some e) => (m2, runCount, st2, some e)
          | (st2, none) => innerLoop br paramValues k m2 (runCount + 1) st2

/-- The `for param_values in product(...)` loop of `run_all`: construct one
model per parameter combination and run the inner loop, threading the
globally increasing `run_count`; an escaping exception aborts with the
stores as mutated so far. -/
def outerLoop {σ α : Type} (br : BatchRunner σ α) :
    List (List PyVal) → Nat → Stores → Nat × Stores × Option PyErr
  | [], runCount, st => (runCount, st, none)
  | pv :: rest, runCount, st =>
      let kwargs := zipToDict (br.parameterValues.map Prod.fst) pv
      match tryToInitModel br kwargs with
      | Except.error e => (runCount, st, some e)
      | Except.ok m =>
          match innerLoop br pv br.iterations m runCount st with
          | (_, runCount2, st2, some e) => (runCount2, st2, some e)
          | (_, runCount2, st2, none) => outerLoop br rest runCount2 st2

/-- `BatchRunner.run_all` on the current stores: `run_count` starts at 0 on
every invocation; the returned stores reflect every mutation made before a
possible escaping exception (`none` means normal completion). -/
def runAll {σ α : Type} (br : BatchRunner σ α) (st : Stores) :
    Stores × Option PyErr :=
  match outerLoop br (cartProduct br.paramRanges) 0 st with
  | (_, st2, e) => (st2, e)

/-- A materialized report: the ordered column names, and one record dict per
row (a cell absent from the dict is pandas' missing-value marker). -/
structure Table where
  columns : List String
  rows : List (List (String × PyVal))
deriving DecidableEq

/-- One raw record of `_prepare_report_table`:
`record = dict(zip(index_cols, k)); record.update(v)`. -/
def processRecord (indexCols : List String) (k : List PyVal)
    (v : List (String × PyVal)) : List (String × PyVal) :=
  dupdate (zipToDict indexCols k) v

/-- Keep the first occurrence of every string (`pd.DataFrame` column-union
order; the batchrunner sorts the non-index part afterwards). -/
def dedupStr : List String → List String
  | [] => []
  | c :: rest => c :: (dedupStr rest).filter (fun d => !(d == c))

/-- A row's `Run` cell, as the integer `sort_values(by='Run')` compares (the
stores built by `run_all` always put an int there). -/
def runOf (row : List (String × PyVal)) : Int :=
  match alookup "Run" row with
  | some (PyVal.int n) => n
  | _ => 0

/-- Row order of `sort_values(by='Run')`. -/
def rowLE (a b : List (String × PyVal)) : Prop :=
  runOf a ≤ runOf b

instance : DecidableRel rowLE := fun a b => Int.decLe (runOf a) (runOf b)

/-- `BatchRunner._prepare_report_table`: build one record per store entry,
take the union of the record keys, put the index columns first followed by
the remaining columns sorted lexicographically, and sort the rows by the
`Run` column. -/
def prepareReportTable (indexCols : List String)
    (varsDict : List (List PyVal × List (String × PyVal))) : Table :=
  let records := varsDict.map (fun kv => processRecord indexCols kv.1 kv.2)
  let allCols := dedupStr (records.flatMap (fun r => r.map Prod.fst))
  let restCols := List.insertionSort (fun a b => a ≤ b)
    (allCols.filter (fun c => !indexCols.contains c))
  ⟨indexCols ++ restCols, List.insertionSort rowLE records⟩

/-- The index columns used for both reports:
`list(self.parameter_values.keys()) + ['Run']`. -/
def BatchRunner.indexCols {σ α : Type} (br : BatchRunner σ α) : List String :=
  br.parameterValues.map Prod.fst ++ ["Run"]

/-- `BatchRunner.get_model_vars_dataframe`. -/
def getModelVarsDataframe {σ α : Type} (br : BatchRunner σ α) (st : Stores) :
    Table :=
  prepareReportTable br.indexCols st.modelVars

/-- `BatchRunner.get_agent_vars_dataframe` (the source passes the same index
columns, without an agent-identifier column). -/
def getAgentVarsDataframe {σ α : Type} (br : BatchRunner σ α) (st : Stores) :
    Table :=
  prepareReportTable br.indexCols st.agentVars

/-- The guard of the `while` loop in `run_model`. -/
def loopGuard {σ α : Type} (pm : PModel σ α) (maxSteps : Nat) (s : σ) :
    Prop :=
  pm.running s = true ∧ pm.steps s < maxSteps

instance {σ α : Type} (pm : PModel σ α) (maxSteps : Nat) (s : σ) :
    Decidable (loopGuard pm maxSteps s) :=
  inferInstanceAs (Decidable (_ ∧ _))

/-- Every key present in store `d` is still present in store `d'` (the
record under it may have been replaced). -/
def keysPreserved (d d' : List (List PyVal × List (String × PyVal))) :
    Prop :=
  ∀ k, (alookup k d).isSome = true → (alookup k d').isSome = true

/-- A minimal conforming model used in concrete runs: the state is
`(step counter, running flag)`, `step` advances the counter, and the
schedule holds a single agent with `unique_id` 0. -/
def mockModel : PModel (Nat × Bool) Unit where
  running := Prod.snd
  steps := Prod.fst
  step := fun s => (s.1 + 1, s.2)
  agents := fun _ => [()]
  uniqueId := fun _ => PyVal.int 0

/-- A batch runner over `mockModel` with one variable parameter
`a ∈ [1]`, no fixed parameters, three iterations, a step ceiling of 5 and
one model reporter reading the step counter. -/
def brIter3 : BatchRunner (Nat × Bool) Unit where
  pm := mockModel
  modelSig := [⟨"a", ParamKind.positionalOrKeyword, false⟩]
  mkModel := fun _ => (0, true)
  variableParameters := [("a", PyVal.list [PyVal.int 1])]
  fixedValues := []
  iterations := 3
  maxSteps := 5
  modelReporters := [("m", fun s => Except.ok (PyVal.int s.1))]
  agentReporters := []

/-- `brIter3` with a single iteration. -/
def brOnce : BatchRunner (Nat × Bool) Unit :=
  { brIter3 with iterations := 1 }

/-- `brOnce` with an entity-level reporter that always raises. -/
def brAgentFail : BatchRunner (Nat × Bool) Unit :=
  { brOnce with
    agentReporters :=
      [("x", fun _ => Except.error (PyErr.reporterFailure "boom"))] }

/-- `brOnce` with a model-level reporter that always raises. -/
def brModelFail : BatchRunner (Nat × Bool) Unit :=
  { brOnce with
    modelReporters :=
      [("m", fun _ => Except.error (PyErr.reporterFailure "boom"))] }

/-- The constructor signature `(self, a, b, **extra)` (after `self`). -/
def sigVarKw : List Param :=
  [⟨"a", ParamKind.positionalOrKeyword, false⟩,
   ⟨"b", ParamKind.positionalOrKeyword, false⟩,
   ⟨"extra", ParamKind.varKeyword, false⟩]

/-- A batch runner whose model class accepts `(self, a, b, **extra)` and
whose fixed parameters are `{c: 7}`; the model state is the bound
environment itself. -/
def brVarKw : BatchRunner (List (String × PyVal)) Unit where
  pm :=
    { running := fun _ => false
      steps := fun _ => 0
      step := id
      agents := fun _ => []
      uniqueId := fun _ => PyVal.vnone }
  modelSig := sigVarKw
  mkModel := id
  variableParameters := []
  fixedValues := [("c", PyVal.int 7)]
  iterations := 1
  maxSteps := 5
  modelReporters := []
  agentReporters := []

/-- `brVarKw` for a model class accepting `(self, *args)`. -/
def brVarPos : BatchRunner (List (String × PyVal)) Unit :=
  { brVarKw with modelSig := [⟨"args", ParamKind.varPositional, false⟩] }

/-- `brVarKw` for a model class accepting `(self, a, other)`: the last
declared parameter is a plain named one, so the fallback can bind the fixed
parameters to it. -/
def brNamedLast : BatchRunner (List (String × PyVal)) Unit :=
  { brVarKw with
    modelSig := [⟨"a", ParamKind.positionalOrKeyword, false⟩,
                 ⟨"other", ParamKind.positionalOrKeyword, false⟩] }

/-- `brVarKw` for a model class accepting `(self, a, **kw)`: with the
required `a` missing, the direct call fails and the last parameter's kind
rules the fallback out. -/
def brKwLast : BatchRunner (List (String × PyVal)) Unit :=
  { brVarKw with
    modelSig := [⟨"a", ParamKind.positionalOrKeyword, false⟩,
                 ⟨"kw", ParamKind.varKeyword, false⟩] }

/-- A one-record model-level store whose single reporter is named `Run`,
colliding with the index column of the same name. -/
def runNamedStore : List (List PyVal × List (String × PyVal)) :=
  [([PyVal.int 1, PyVal.int 0], [("Run", PyVal.int 99)])]

/-- A two-record model-level store with distinct reporter keys per record,
inserted with the larger run number first. -/
def twoRecordStore : List (List PyVal × List (String × PyVal)) :=
  [([PyVal.int 1, PyVal.int 1], [("z", PyVal.int 5), ("b", PyVal.int 6)]),
   ([PyVal.int 1, PyVal.int 0], [("b", PyVal.int 4)])]


theorem alookup_map_replace_self {κ β : Type} [DecidableEq κ] (k : κ)
    (v : β) :
    ∀ d : List (κ × β), d.any (fun kv => kv.1 = k) = true →
      alookup k (d.map (fun kv => if kv.1 = k then (k, v) else kv)) = some v
  | kv :: rest, hany => by
      by_cases h : kv.1 = k
      · simp [alookup, h]
      · have hrest : rest.any (fun kv => kv.1 = k) = true := by
          simpa [h] using hany
        simpa [alookup, h] using alookup_map_replace_self k v rest hrest

theorem alookup_map_replace_ne {κ β : Type} [DecidableEq κ] (k k' : κ)
    (v : β) (hne : k' ≠ k) :
    ∀ d : List (κ × β),
      alookup k' (d.map (fun kv => if kv.1 = k then (k, v) else kv)) =
        alookup k' d
  | [] => rfl
  | kv :: rest => by
      by_cases h : kv.1 = k
      · have h1 : ¬ k = k' := fun hc => hne hc.symm
        have h2 : ¬ kv.1 = k' := fun hc => hne (h ▸ hc).symm
        simp only [List.map_cons, if_pos h, alookup, if_neg h1, if_neg h2]
        exact alookup_map_replace_ne k k' v hne rest
      · simp only [List.map_cons, if_neg h, alookup]
        by_cases h3 : kv.1 = k'
        · simp [h3]
        · simp only [if_neg h3]
          exact alookup_map_replace_ne k k' v hne rest

theorem alookup_append {κ β : Type} [DecidableEq κ] (k : κ) :
    ∀ d d' : List (κ × β),
      alookup k (d ++ d') =
        (match alookup k d with
         | some w => some w
         | none => alookup k d')
  | [], _ => rfl
  | kv :: rest, d' => by
      by_cases h : kv.1 = k
      · simp [alookup, h]
      · simpa [alookup, h] using alookup_append k rest d'

theorem not_any_key_iff {κ β : Type} [DecidableEq κ] (d : List (κ × β))
    (k : κ) :
    d.any (fun kv => kv.1 = k) = false ↔ k ∉ d.map Prod.fst := by
  induction d with
  | nil => simp
  | cons kv rest ih =>
      simp only [List.any_cons, Bool.or_eq_false_iff,
        decide_eq_false_iff_not, List.map_cons, List.mem_cons, not_or, ih]
      constructor
      · rintro ⟨h1, h2⟩
        exact ⟨fun hc => h1 hc.symm, h2⟩
      · rintro ⟨h1, h2⟩
        exact ⟨fun hc => h1 hc.symm, h2⟩

theorem alookup_eq_none_of_not_mem {κ β : Type} [DecidableEq κ]
    (d : List (κ × β)) (k : κ) (h : k ∉ d.map Prod.fst) :
    alookup k d = none := by
  induction d with
  | nil => rfl
  | cons kv rest ih =>
      simp only [List.map_cons, List.mem_cons, not_or] at h
      simp only [alookup, if_neg (fun hc : kv.1 = k => h.1 hc.symm)]
      exact ih h.2

theorem alookup_ainsert_self {κ β : Type} [DecidableEq κ]
    (d : List (κ × β)) (k : κ) (v : β) :
    alookup k (ainsert d k v) = some v := by
  unfold ainsert
  by_cases hany : d.any (fun kv => kv.1 = k) = true
  · rw [if_pos hany]
    exact alookup_map_replace_self k v d hany
  · rw [if_neg hany, alookup_append,
      alookup_eq_none_of_not_mem d k
        ((not_any_key_iff d k).mp (Bool.eq_false_iff.mpr hany))]
    simp [alookup]

theorem alookup_ainsert_ne {κ β : Type} [DecidableEq κ]
    (d : List (κ × β)) (k k' : κ) (v : β) (hne : k' ≠ k) :
    alookup k' (ainsert d k v) = alookup k' d := by
  unfold ainsert
  by_cases hany : d.any (fun kv => kv.1 = k) = true
  · rw [if_pos hany]
    exact alookup_map_replace_ne k k' v hne d
  · rw [if_neg hany, alookup_append]
    have h1 : ¬ ((k, v).1 = k') := fun hc => hne hc.symm
    have h2 : alookup k' [(k, v)] = none := by simp [alookup, h1]
    rw [h2]
    cases alookup k' d <;> rfl

theorem isSome_alookup_iff_mem {κ β : Type} [DecidableEq κ]
    (d : List (κ × β)) (k : κ) :
    (alookup k d).isSome = true ↔ k ∈ d.map Prod.fst := by
  induction d with
  | nil => simp [alookup]
  | cons kv rest ih =>
      by_cases h : kv.1 = k
      · simp [alookup, h]
      · simp only [alookup, if_neg h, List.map_cons, List.mem_cons, ih]
        constructor
        · exact Or.inr
        · rintro (hc | hc)
          · exact absurd hc.symm h
          · exact hc

theorem isSome_alookup_ainsert {κ β : Type} [DecidableEq κ]
    (d : List (κ × β)) (k k' : κ) (v : β) :
    (alookup k' (ainsert d k v)).isSome = true ↔
      k' = k ∨ (alookup k' d).isSome = true := by
  by_cases h : k' = k
  · subst h
    simp [alookup_ainsert_self]
  · rw [alookup_ainsert_ne d k k' v h]
    simp [h]

theorem isSome_alookup_dupdate {κ β : Type} [DecidableEq κ]
    (other : List (κ × β)) :
    ∀ (d : List (κ × β)) (k : κ),
      (alookup k (dupdate d other)).isSome = true ↔
        (alookup k d).isSome = true ∨ k ∈ other.map Prod.fst := by
  induction other with
  | nil => intro d k; simp [dupdate]
  | cons kv rest ih =>
      intro d k
      have hshow : dupdate d (kv :: rest) = dupdate (ainsert d kv.1 kv.2) rest :=
        rfl
      rw [hshow, ih, isSome_alookup_ainsert]
      simp only [List.map_cons, List.mem_cons]
      tauto

theorem alookup_dupdate_not_mem {κ β : Type} [DecidableEq κ]
    (other : List (κ × β)) :
    ∀ (d : List (κ × β)) (k : κ), k ∉ other.map Prod.fst →
      alookup k (dupdate d other) = alookup k d := by
  induction other with
  | nil => intro d k _; rfl
  | cons kv rest ih =>
      intro d k h
      simp only [List.map_cons, List.mem_cons, not_or] at h
      have hshow : dupdate d (kv :: rest) = dupdate (ainsert d kv.1 kv.2) rest :=
        rfl
      rw [hshow, ih _ _ h.2, alookup_ainsert_ne _ _ _ _ h.1]

theorem alookup_dupdate_mem_nodup {κ β : Type} [DecidableEq κ]
    (other : List (κ × β)) :
    ∀ (d : List (κ × β)) (k : κ) (v : β),
      (other.map Prod.fst).Nodup → alookup k other = some v →
      alookup k (dupdate d other) = some v := by
  induction other with
  | nil => intro d k v _ h; exact absurd h (by simp [alookup])
  | cons kv rest ih =>
      intro d k v hnd h
      simp only [List.map_cons, List.nodup_cons] at hnd
      have hshow : dupdate d (kv :: rest) = dupdate (ainsert d kv.1 kv.2) rest :=
        rfl
      rw [hshow]
      by_cases h1 : kv.1 = k
      · subst h1
        have hv : kv.2 = v := by simpa [alookup] using h
        rw [alookup_dupdate_not_mem rest _ kv.1 hnd.1,
          alookup_ainsert_self, hv]
      · simp only [alookup, if_neg h1] at h
        exact ih _ _ _ hnd.2 h

theorem keys_dupdate_subset {κ β : Type} [DecidableEq κ]
    (other : List (κ × β)) :
    ∀ (d : List (κ × β)) (k : κ), k ∈ (dupdate d other).map Prod.fst →
      k ∈ d.map Prod.fst ∨ k ∈ other.map Prod.fst := by
  intro d k h
  have := (isSome_alookup_dupdate other d k).mp
    ((isSome_alookup_iff_mem _ _).mpr h)
  rcases this with h1 | h1
  · exact Or.inl ((isSome_alookup_iff_mem _ _).mp h1)
  · exact Or.inr h1

theorem cartProduct_foldl {β : Type} (pools : List (List β)) :
    ∀ acc : List (List β),
      pools.foldl
        (fun acc pool =>
          acc.flatMap (fun tup => pool.map (fun y => tup ++ [y]))) acc =
        acc.flatMap (fun tup => (prodSpec pools).map (fun t => tup ++ t)) := by
  induction pools with
  | nil =>
      intro acc
      simp [prodSpec]
  | cons pool rest ih =>
      intro acc
      simp only [List.foldl_cons, ih, prodSpec]
      simp only [List.flatMap_assoc, List.map_flatMap, List.flatMap_map,
        List.map_map]
      refine congrArg _ (funext fun tup => congrArg _ (funext fun y => ?_))
      simp [Function.comp_def, List.append_assoc]

theorem cartProduct_eq_prodSpec {β : Type} (pools : List (List β)) :
    cartProduct pools = prodSpec pools := by
  unfold cartProduct
  rw [cartProduct_foldl pools [[]]]
  simp

theorem prodSpec_eq_nil {β : Type} :
    ∀ pools : List (List β), [] ∈ pools → prodSpec pools = []
  | pool :: rest, hmem => by
      rcases List.mem_cons.mp hmem with h | h
      · subst h
        rfl
      · simp [prodSpec, prodSpec_eq_nil rest h]

/-- C3: the Parameter Expander (`itertools.product` over the per-parameter
candidate sequences) yields exactly the conventional Cartesian product, the
first parameter varying slowest and the last fastest; for
`{a: [1, 2], b: [10]}` it yields exactly `[(1, 10), (2, 10)]` in that order,
and an empty candidate sequence for any parameter yields zero run
configurations. -/
theorem claim_C3_parameter_expander :
    (∀ (β : Type) (pools : List (List β)), cartProduct pools = prodSpec pools)
    ∧ cartProduct [[PyVal.int 1, PyVal.int 2], [PyVal.int 10]] =
        [[PyVal.int 1, PyVal.int 10], [PyVal.int 2, PyVal.int 10]]
    ∧ (∀ (β : Type) (pools : List (List β)), [] ∈ pools →
        cartProduct pools = []) := by
  refine ⟨fun β pools => cartProduct_eq_prodSpec pools, rfl, ?_⟩
  intro β pools h
  rw [cartProduct_eq_prodSpec]
  exact prodSpec_eq_nil pools h

theorem claim_C3_parameter_expander_witness :
    cartProduct [[PyVal.int 1], [], [PyVal.int 2]] = [] :=
  claim_C3_parameter_expander.2.2 PyVal
    [[PyVal.int 1], [], [PyVal.int 2]] (by simp)

/-- C10: `make_iterable` returns any non-string iterable unchanged and
wraps every other value in a one-element list; in particular `5` becomes
`[5]` and `"x"` becomes `["x"]`, never a sequence of characters. -/
theorem claim_C10_make_iterable :
    (∀ v : PyVal, hasIterAttr v = true → isStrInstance v = false →
      makeIterable v = v) ∧
    (∀ v : PyVal, hasIterAttr v = false ∨ isStrInstance v = true →
      makeIterable v = PyVal.list [v]) ∧
    makeIterable (PyVal.int 5) = PyVal.list [PyVal.int 5] ∧
    makeIterable (PyVal.str "x") = PyVal.list [PyVal.str "x"] := by
  refine ⟨?_, ?_, rfl, rfl⟩
  · intro v h1 h2
    simp [makeIterable, h1, h2]
  · intro v h
    rcases h with h | h <;> simp [makeIterable, h]

theorem claim_C10_make_iterable_witness :
    makeIterable (PyVal.list [PyVal.int 3]) = PyVal.list [PyVal.int 3] ∧
    makeIterable PyVal.vnone = PyVal.list [PyVal.vnone] :=
  ⟨claim_C10_make_iterable.1 (PyVal.list [PyVal.int 3]) rfl rfl,
   claim_C10_make_iterable.2.1 PyVal.vnone (Or.inl rfl)⟩

theorem steps_iterate {σ α : Type} (pm : PModel σ α)
    (hstep : ∀ t, pm.steps (pm.step t) = pm.steps t + 1) :
    ∀ (k : Nat) (s : σ), pm.steps (pm.step^[k] s) = pm.steps s + k := by
  intro k
  induction k with
  | zero => intro s; simp
  | succ k ih =>
      intro s
      rw [Function.iterate_succ_apply, ih (pm.step s), hstep s]
      omega

theorem runModelAux_char {σ α : Type} (pm : PModel σ α) (maxSteps : Nat)
    (hstep : ∀ t, pm.steps (pm.step t) = pm.steps t + 1) :
    ∀ (fuel : Nat) (s : σ), maxSteps - pm.steps s ≤ fuel →
      ∃ k, runModelAux pm maxSteps fuel s = pm.step^[k] s ∧
        (∀ j, j < k → loopGuard pm maxSteps (pm.step^[j] s)) ∧
        ¬ loopGuard pm maxSteps (pm.step^[k] s) := by
  intro fuel
  induction fuel with
  | zero =>
      intro s hf
      refine ⟨0, rfl, fun j hj => absurd hj (Nat.not_lt_zero j), ?_⟩
      rw [Function.iterate_zero_apply]
      intro hg
      exact absurd hg.2 (by omega)
  | succ fuel ih =>
      intro s hf
      by_cases hg : loopGuard pm maxSteps s
      · have hf2 : maxSteps - pm.steps (pm.step s) ≤ fuel := by
          have := hg.2
          rw [hstep s]
          omega
        obtain ⟨k, hk, hbefore, hafter⟩ := ih (pm.step s) hf2
        have hunfold : runModelAux pm maxSteps (fuel + 1) s
            = runModelAux pm maxSteps fuel (pm.step s) := by
          simp only [runModelAux]
          rw [if_pos (show pm.running s = true ∧ pm.steps s < maxSteps
            from hg)]
        refine ⟨k + 1, ?_, ?_, ?_⟩
        · rw [hunfold, hk, Function.iterate_succ_apply]
        · intro j hj
          cases j with
          | zero => exact hg
          | succ j =>
              rw [Function.iterate_succ_apply]
              exact hbefore j (by omega)
        · rw [Function.iterate_succ_apply]
          exact hafter
      · have hunfold : runModelAux pm maxSteps (fuel + 1) s = s := by
          simp only [runModelAux]
          rw [if_neg (show ¬ (pm.running s = true ∧ pm.steps s < maxSteps)
            from hg)]
        exact ⟨0, hunfold, fun j hj => absurd hj (Nat.not_lt_zero j), hg⟩

/-- C4: for every model whose step operation advances the step counter by
exactly one, `run_model` stops at the first state where the running flag is
false or the counter has reached `max_steps`; starting at or below the
ceiling the counter never exceeds `max_steps`, and it equals `max_steps`
whenever the loop stopped with the flag still set. -/
theorem claim_C4_run_driver {σ α : Type} (pm : PModel σ α) (maxSteps : Nat)
    (s : σ) (hstep : ∀ t, pm.steps (pm.step t) = pm.steps t + 1) :
    (∃ k, runModel pm maxSteps s = pm.step^[k] s ∧
      (∀ j, j < k → loopGuard pm maxSteps (pm.step^[j] s)) ∧
      ¬ loopGuard pm maxSteps (pm.step^[k] s)) ∧
    (pm.steps s ≤ maxSteps → pm.steps (runModel pm maxSteps s) ≤ maxSteps) ∧
    (pm.steps s ≤ maxSteps → pm.running (runModel pm maxSteps s) = true →
      pm.steps (runModel pm maxSteps s) = maxSteps) := by
  obtain ⟨k, hk, hbefore, hafter⟩ :=
    runModelAux_char pm maxSteps hstep maxSteps s (Nat.sub_le _ _)
  have hk2 : runModel pm maxSteps s = pm.step^[k] s := hk
  have hbound : pm.steps s ≤ maxSteps →
      pm.steps (runModel pm maxSteps s) ≤ maxSteps := by
    intro hinit
    rw [hk2, steps_iterate pm hstep k s]
    cases k with
    | zero => simpa using hinit
    | succ j =>
        have := (hbefore j (by omega)).2
        rw [steps_iterate pm hstep j s] at this
        omega
  refine ⟨⟨k, hk2, hbefore, hafter⟩, hbound, ?_⟩
  intro hinit hrun
  have h1 := hbound hinit
  have h2 : ¬ pm.steps (runModel pm maxSteps s) < maxSteps := by
    intro hc
    rw [hk2] at hrun hc
    exact hafter ⟨hrun, hc⟩
  omega

theorem claim_C4_run_driver_witness :
    mockModel.steps (runModel mockModel 2 (0, true)) ≤ 2 ∧
    mockModel.steps (runModel mockModel 2 (0, true)) = 2 :=
  ⟨(claim_C4_run_driver mockModel 2 (0, true) (fun _ => rfl)).2.1
    (by decide),
   (claim_C4_run_driver mockModel 2 (0, true) (fun _ => rfl)).2.2
    (by decide) (by decide)⟩

theorem isEmpty_false_of_ne_nil {β : Type} {l : List β} (h : l ≠ []) :
    l.isEmpty = false := by
  cases l with
  | nil => exact absurd rfl h
  | cons x xs => rfl

/-- C9: with no fixed parameters the model is constructed from the variable
parameters alone; otherwise construction is first attempted from the union
of variable and fixed parameters, fixed values overriding variable values on
key collision. -/
theorem claim_C9_construction_precedence {σ α : Type}
    (br : BatchRunner σ α) (vp : List (String × PyVal)) :
    (br.fixedValues = [] →
      tryToInitModel br vp =
        (match callKwargs br.modelSig vp with
         | some env => Except.ok (br.mkModel env)
         | none => Except.error PyErr.typeError)) ∧
    (br.fixedValues ≠ [] → ∀ env,
      callKwargs br.modelSig (dupdate vp br.fixedValues) = some env →
      tryToInitModel br vp = Except.ok (br.mkModel env)) ∧
    ((br.fixedValues.map Prod.fst).Nodup → ∀ k v,
      alookup k br.fixedValues = some v →
      alookup k (dupdate vp br.fixedValues) = some v) := by
  refine ⟨?_, ?_, ?_⟩
  · intro h
    simp only [tryToInitModel, tryToInitModelTraced, h, List.isEmpty_nil,
      if_true]
  · intro h env hcall
    have hie := isEmpty_false_of_ne_nil h
    simp only [tryToInitModel, tryToInitModelTraced, hie, Bool.false_eq_true,
      if_false, hcall]
  · intro hnd k v h
    exact alookup_dupdate_mem_nodup br.fixedValues vp k v hnd h

theorem claim_C9_construction_precedence_witness :
    tryToInitModel brIter3 [("a", PyVal.int 1)] = Except.ok (0, true) ∧
    tryToInitModel brVarKw [("a", PyVal.int 1), ("b", PyVal.int 2)] =
      Except.ok [("a", PyVal.int 1), ("b", PyVal.int 2),
        ("extra", PyVal.dict [("c", PyVal.int 7)])] ∧
    alookup "c" (dupdate [("c", PyVal.int 0)] brVarKw.fixedValues) =
      some (PyVal.int 7) :=
  ⟨((claim_C9_construction_precedence brIter3 [("a", PyVal.int 1)]).1
      rfl).trans rfl,
   (claim_C9_construction_precedence brVarKw
      [("a", PyVal.int 1), ("b", PyVal.int 2)]).2.1
      (by decide) _ rfl,
   (claim_C9_construction_precedence brVarKw [("c", PyVal.int 0)]).2.2
      (by decide) "c" (PyVal.int 7) rfl⟩

/-- C1 counterexample: for a constructor accepting `(self, a, b, **extra)`
with FixedParameters `{c: 7}`, construction succeeds through the *direct*
keyword-expansion path (the var-keyword parameter absorbs `c`), not through
the fallback path the claim names. -/
theorem claim_C1_counterexample :
    tryToInitModelTraced brVarKw [("a", PyVal.int 1), ("b", PyVal.int 2)] =
      (Except.ok [("a", PyVal.int 1), ("b", PyVal.int 2),
        ("extra", PyVal.dict [("c", PyVal.int 7)])],
       InitPath.direct) ∧
    InitPath.direct ≠ InitPath.fallback :=
  ⟨rfl, fun h => InitPath.noConfusion h⟩

/-- C1 (amended): when the union construction fails with a `TypeError` and
the constructor's last declared parameter is positional-or-keyword or
var-positional, `_try_to_init_model` falls back to passing FixedParameters
unexpanded as the value bound to that parameter's name, together with the
RunConfiguration keywords; a trailing `kwargs` parameter never reaches the
fallback — for `(self, a, b, **extra)` with FixedParameters `{c: 7}` the
direct attempt itself succeeds with `extra == {c: 7}`. -/
theorem claim_C1_constructor_fallback :
    (∀ (σ α : Type) (br : BatchRunner σ α) (vp : List (String × PyVal)),
      br.fixedValues ≠ [] →
      callKwargs br.modelSig (dupdate vp br.fixedValues) = none →
      ((lastSigParam (selfParam :: br.modelSig)).kind =
          ParamKind.positionalOrKeyword ∨
        (lastSigParam (selfParam :: br.modelSig)).kind =
          ParamKind.varPositional) →
      tryToInitModelTraced br vp =
        (match callKwargs br.modelSig
            (ainsert vp (lastSigParam (selfParam :: br.modelSig)).name
              (PyVal.dict br.fixedValues)) with
         | some env => Except.ok (br.mkModel env)
         | none => Except.error PyErr.typeError,
         InitPath.fallback)) ∧
    tryToInitModelTraced brVarKw [("a", PyVal.int 1), ("b", PyVal.int 2)] =
      (Except.ok [("a", PyVal.int 1), ("b", PyVal.int 2),
        ("extra", PyVal.dict [("c", PyVal.int 7)])],
       InitPath.direct) := by
  refine ⟨?_, rfl⟩
  intro σ α br vp hne hcall hkind
  have hie := isEmpty_false_of_ne_nil hne
  simp only [tryToInitModelTraced, hie, Bool.false_eq_true, if_false,
    hcall, if_pos hkind]

theorem claim_C1_constructor_fallback_witness :
    tryToInitModelTraced brNamedLast [("a", PyVal.int 1)] =
      (Except.ok [("a", PyVal.int 1),
        ("other", PyVal.dict [("c", PyVal.int 7)])],
       InitPath.fallback) :=
  (claim_C1_constructor_fallback.1 (List (String × PyVal)) Unit
    brNamedLast [("a", PyVal.int 1)] (by decide) (by decide)
    (Or.inl rfl)).trans rfl

/-- C8 counterexample: for a constructor accepting `(self, *args)` with
FixedParameters `{c: 7}`, neither construction path succeeds, yet the
failure is the propagated `TypeError` of the fallback call, not a
`ValueError` identifying the parameters. -/
theorem claim_C8_counterexample :
    tryToInitModel brVarPos [] = Except.error PyErr.typeError ∧
    (∀ vp fv, PyErr.typeError ≠ PyErr.valueError vp fv) :=
  ⟨rfl, fun _ _ h => PyErr.noConfusion h⟩

/-- C8 (amended): when the union construction fails and the fallback is not
applicable (the last declared parameter is neither positional-or-keyword
nor var-positional), `_try_to_init_model` raises the `ValueError`
identifying both the variable and the fixed parameters; when the fallback
is applicable but its call also fails, that `TypeError` propagates instead.
Either way the sweep aborts at once: the failing configuration contributes
no records and the stores keep exactly their prior contents. -/
theorem claim_C8_configuration_error :
    (∀ (σ α : Type) (br : BatchRunner σ α) (vp : List (String × PyVal)),
      br.fixedValues ≠ [] →
      callKwargs br.modelSig (dupdate vp br.fixedValues) = none →
      ¬ ((lastSigParam (selfParam :: br.modelSig)).kind =
            ParamKind.positionalOrKeyword ∨
          (lastSigParam (selfParam :: br.modelSig)).kind =
            ParamKind.varPositional) →
      tryToInitModel br vp =
        Except.error (PyErr.valueError vp br.fixedValues)) ∧
    (∀ (σ α : Type) (br : BatchRunner σ α) (vp : List (String × PyVal)),
      br.fixedValues ≠ [] →
      callKwargs br.modelSig (dupdate vp br.fixedValues) = none →
      ((lastSigParam (selfParam :: br.modelSig)).kind =
          ParamKind.positionalOrKeyword ∨
        (lastSigParam (selfParam :: br.modelSig)).kind =
          ParamKind.varPositional) →
      callKwargs br.modelSig
        (ainsert vp (lastSigParam (selfParam :: br.modelSig)).name
          (PyVal.dict br.fixedValues)) = none →
      tryToInitModel br vp = Except.error PyErr.typeError) ∧
    (∀ (σ α : Type) (br : BatchRunner σ α) (pv : List PyVal)
        (rest : List (List PyVal)) (rc : Nat) (st : Stores) (e : PyErr),
      tryToInitModel br
        (zipToDict (br.parameterValues.map Prod.fst) pv) =
          Except.error e →
      outerLoop br (pv :: rest) rc st = (rc, st, some e)) := by
  refine ⟨?_, ?_, ?_⟩
  · intro σ α br vp hne hcall hkind
    have hie := isEmpty_false_of_ne_nil hne
    simp only [tryToInitModel, tryToInitModelTraced, hie,
      Bool.false_eq_true, if_false, hcall, if_neg hkind]
  · intro σ α br vp hne hcall hkind hcall2
    have hie := isEmpty_false_of_ne_nil hne
    simp only [tryToInitModel, tryToInitModelTraced, hie,
      Bool.false_eq_true, if_false, hcall, if_pos hkind, hcall2]
  · intro σ α br pv rest rc st e h
    simp only [outerLoop, h]

theorem claim_C8_configuration_error_witness :
    tryToInitModel brKwLast [] =
      Except.error (PyErr.valueError [] [("c", PyVal.int 7)]) ∧
    tryToInitModel brVarPos [] = Except.error PyErr.typeError ∧
    outerLoop brVarPos [[]] 0 ⟨[], []⟩ =
      (0, ⟨[], []⟩, some PyErr.typeError) :=
  ⟨(claim_C8_configuration_error.1 (List (String × PyVal)) Unit brKwLast []
      (by decide) (by decide) (by decide)).trans rfl,
   claim_C8_configuration_error.2.1 (List (String × PyVal)) Unit brVarPos []
      (by decide) (by decide) (Or.inr rfl) (by decide),
   claim_C8_configuration_error.2.2 (List (String × PyVal)) Unit brVarPos
      [] [] 0 ⟨[], []⟩ PyErr.typeError rfl⟩

theorem innerLoop_succ {σ α : Type} (br : BatchRunner σ α) (pv : List PyVal)
    (k : Nat) (m : σ) (rc : Nat) (st : Stores) :
    innerLoop br pv (k + 1) m rc st =
      (match collectModelStep br pv (runModel br.pm br.maxSteps m) rc st with
       | (st1, some e) => (runModel br.pm br.maxSteps m, rc, st1, some e)
       | (st1, none) =>
           match collectAgentStep br pv (runModel br.pm br.maxSteps m) rc
               st1 with
           | (st2, some e) => (runModel br.pm br.maxSteps m, rc, st2, some e)
           | (st2, none) =>
               innerLoop br pv k (runModel br.pm br.maxSteps m) (rc + 1)
                 st2) := rfl

theorem outerLoop_cons {σ α : Type} (br : BatchRunner σ α)
    (pv : List PyVal) (rest : List (List PyVal)) (rc : Nat) (st : Stores) :
    outerLoop br (pv :: rest) rc st =
      (match tryToInitModel br
          (zipToDict (br.parameterValues.map Prod.fst) pv) with
       | Except.error e => (rc, st, some e)
       | Except.ok m =>
           match innerLoop br pv br.iterations m rc st with
           | (_, rc2, st2, some e) => (rc2, st2, some e)
           | (_, rc2, st2, none) => outerLoop br rest rc2 st2) := rfl

theorem innerLoop_succ_modelErr {σ α : Type} (br : BatchRunner σ α)
    (pv : List PyVal) (k : Nat) (m : σ) (rc : Nat) (st st1 : Stores)
    (e : PyErr)
    (hms : collectModelStep br pv (runModel br.pm br.maxSteps m) rc st =
      (st1, some e)) :
    innerLoop br pv (k + 1) m rc st =
      (runModel br.pm br.maxSteps m, rc, st1, some e) := by
  rw [innerLoop_succ, hms]

theorem innerLoop_succ_modelOk {σ α : Type} (br : BatchRunner σ α)
    (pv : List PyVal) (k : Nat) (m : σ) (rc : Nat) (st st1 : Stores)
    (hms : collectModelStep br pv (runModel br.pm br.maxSteps m) rc st =
      (st1, none)) :
    innerLoop br pv (k + 1) m rc st =
      (match collectAgentStep br pv (runModel br.pm br.maxSteps m) rc
          st1 with
       | (st2, some e) => (runModel br.pm br.maxSteps m, rc, st2, some e)
       | (st2, none) =>
           innerLoop br pv k (runModel br.pm br.maxSteps m) (rc + 1)
             st2) := by
  rw [innerLoop_succ, hms]

theorem innerLoop_succ_agentErr {σ α : Type} (br : BatchRunner σ α)
    (pv : List PyVal) (k : Nat) (m : σ) (rc : Nat) (st st1 st2 : Stores)
    (e : PyErr)
    (hms : collectModelStep br pv (runModel br.pm br.maxSteps m) rc st =
      (st1, none))
    (has : collectAgentStep br pv (runModel br.pm br.maxSteps m) rc st1 =
      (st2, some e)) :
    innerLoop br pv (k + 1) m rc st =
      (runModel br.pm br.maxSteps m, rc, st2, some e) := by
  rw [innerLoop_succ_modelOk br pv k m rc st st1 hms, has]

theorem innerLoop_succ_ok {σ α : Type} (br : BatchRunner σ α)
    (pv : List PyVal) (k : Nat) (m : σ) (rc : Nat) (st st1 st2 : Stores)
    (hms : collectModelStep br pv (runModel br.pm br.maxSteps m) rc st =
      (st1, none))
    (has : collectAgentStep br pv (runModel br.pm br.maxSteps m) rc st1 =
      (st2, none)) :
    innerLoop br pv (k + 1) m rc st =
      innerLoop br pv k (runModel br.pm br.maxSteps m) (rc + 1) st2 := by
  rw [innerLoop_succ_modelOk br pv k m rc st st1 hms, has]

theorem outerLoop_cons_initErr {σ α : Type} (br : BatchRunner σ α)
    (pv : List PyVal) (rest : List (List PyVal)) (rc : Nat) (st : Stores)
    (e : PyErr)
    (hinit : tryToInitModel br
      (zipToDict (br.parameterValues.map Prod.fst) pv) = Except.error e) :
    outerLoop br (pv :: rest) rc st = (rc, st, some e) := by
  rw [outerLoop_cons, hinit]

theorem outerLoop_cons_innerErr {σ α : Type} (br : BatchRunner σ α)
    (pv : List PyVal) (rest : List (List PyVal)) (rc : Nat) (st : Stores)
    (m m2 : σ) (rc2 : Nat) (st2 : Stores) (e : PyErr)
    (hinit : tryToInitModel br
      (zipToDict (br.parameterValues.map Prod.fst) pv) = Except.ok m)
    (hil : innerLoop br pv br.iterations m rc st = (m2, rc2, st2, some e)) :
    outerLoop br (pv :: rest) rc st = (rc2, st2, some e) := by
  rw [outerLoop_cons, hinit]
  show (match innerLoop br pv br.iterations m rc st with
        | (_, rc3, st3, some e) => (rc3, st3, some e)
        | (_, rc3, st3, none) => outerLoop br rest rc3 st3) =
      (rc2, st2, some e)
  rw [hil]

theorem outerLoop_cons_innerOk {σ α : Type} (br : BatchRunner σ α)
    (pv : List PyVal) (rest : List (List PyVal)) (rc : Nat) (st : Stores)
    (m m2 : σ) (rc2 : Nat) (st2 : Stores)
    (hinit : tryToInitModel br
      (zipToDict (br.parameterValues.map Prod.fst) pv) = Except.ok m)
    (hil : innerLoop br pv br.iterations m rc st = (m2, rc2, st2, none)) :
    outerLoop br (pv :: rest) rc st = outerLoop br rest rc2 st2 := by
  rw [outerLoop_cons, hinit]
  show (match innerLoop br pv br.iterations m rc st with
        | (_, rc3, st3, some e) => (rc3, st3, some e)
        | (_, rc3, st3, none) => outerLoop br rest rc3 st3) =
      outerLoop br rest rc2 st2
  rw [hil]

theorem innerLoop_runCount {σ α : Type} (br : BatchRunner σ α)
    (pv : List PyVal) :
    ∀ (k : Nat) (m : σ) (rc : Nat) (st : Stores),
      (innerLoop br pv k m rc st).2.2.2 = none →
      (innerLoop br pv k m rc st).2.1 = rc + k := by
  intro k
  induction k with
  | zero => intro m rc st _; rfl
  | succ k ih =>
      intro m rc st h
      rcases hms : collectModelStep br pv (runModel br.pm br.maxSteps m) rc
          st with ⟨st1, e1⟩
      cases e1 with
      | some e =>
          rw [innerLoop_succ_modelErr br pv k m rc st st1 e hms] at h
          exact Option.noConfusion h
      | none =>
          rcases has : collectAgentStep br pv (runModel br.pm br.maxSteps m)
              rc st1 with ⟨st2, e2⟩
          cases e2 with
          | some e =>
              rw [innerLoop_succ_agentErr br pv k m rc st st1 st2 e hms
                has] at h
              exact Option.noConfusion h
          | none =>
              rw [innerLoop_succ_ok br pv k m rc st st1 st2 hms has] at h ⊢
              rw [ih (runModel br.pm br.maxSteps m) (rc + 1) st2 h]
              omega

theorem outerLoop_runCount {σ α : Type} (br : BatchRunner σ α) :
    ∀ (pvs : List (List PyVal)) (rc : Nat) (st : Stores),
      (outerLoop br pvs rc st).2.2 = none →
      (outerLoop br pvs rc st).1 = rc + br.iterations * pvs.length := by
  intro pvs
  induction pvs with
  | nil => intro rc st _; simp [outerLoop]
  | cons pv rest ih =>
      intro rc st h
      rcases hinit : tryToInitModel br
          (zipToDict (br.parameterValues.map Prod.fst) pv) with e | m
      · rw [outerLoop_cons_initErr br pv rest rc st e hinit] at h
        exact Option.noConfusion h
      · rcases hil : innerLoop br pv br.iterations m rc st with
          ⟨m2, rc2, st2, e2⟩
        cases e2 with
        | some e =>
            rw [outerLoop_cons_innerErr br pv rest rc st m m2 rc2 st2 e
              hinit hil] at h
            exact Option.noConfusion h
        | none =>
            rw [outerLoop_cons_innerOk br pv rest rc st m m2 rc2 st2
              hinit hil] at h ⊢
            have hrc2 : rc2 = rc + br.iterations := by
              have h3 := innerLoop_runCount br pv br.iterations m rc st
                (by rw [hil])
              rw [hil] at h3
              exact h3
            rw [ih rc2 st2 h, hrc2, List.length_cons, Nat.mul_succ]
            omega

/-- C7: within one `run_all` invocation the run-sequence-number is a global
counter: an error-free inner loop advances it by exactly its iteration
count, an error-free sweep by `iterations` per configuration with no reset
in between; with `iterations = 3` and a single configuration, exactly the
three record keys with run numbers 0, 1, 2 are produced in the model-level
store. -/
theorem claim_C7_run_counter :
    (∀ (σ α : Type) (br : BatchRunner σ α) (pv : List PyVal) (k : Nat)
        (m : σ) (rc : Nat) (st : Stores),
      (innerLoop br pv k m rc st).2.2.2 = none →
      (innerLoop br pv k m rc st).2.1 = rc + k) ∧
    (∀ (σ α : Type) (br : BatchRunner σ α) (pvs : List (List PyVal))
        (rc : Nat) (st : Stores),
      (outerLoop br pvs rc st).2.2 = none →
      (outerLoop br pvs rc st).1 = rc + br.iterations * pvs.length) ∧
    (runAll brIter3 ⟨[], []⟩).1.modelVars.map Prod.fst =
      [[PyVal.int 1, PyVal.int 0], [PyVal.int 1, PyVal.int 1],
       [PyVal.int 1, PyVal.int 2]] :=
  ⟨fun _ _ br pv k m rc st => innerLoop_runCount br pv k m rc st,
   fun _ _ br pvs rc st => outerLoop_runCount br pvs rc st,
   rfl⟩

theorem claim_C7_run_counter_witness :
    (innerLoop brIter3 [PyVal.int 1] 3 (0, true) 0 ⟨[], []⟩).2.1 = 3 ∧
    (outerLoop brIter3 [[PyVal.int 1]] 0 ⟨[], []⟩).1 = 3 :=
  ⟨(claim_C7_run_counter.1 (Nat × Bool) Unit brIter3 [PyVal.int 1] 3
      (0, true) 0 ⟨[], []⟩ rfl).trans rfl,
   (claim_C7_run_counter.2.1 (Nat × Bool) Unit brIter3 [[PyVal.int 1]] 0
      ⟨[], []⟩ rfl).trans rfl⟩

theorem keysPreserved_refl (d : List (List PyVal × List (String × PyVal))) :
    keysPreserved d d :=
  fun _ h => h

theorem keysPreserved_trans
    {a b c : List (List PyVal × List (String × PyVal))}
    (h1 : keysPreserved a b) (h2 : keysPreserved b c) :
    keysPreserved a c :=
  fun k h => h2 k (h1 k h)

theorem keysPreserved_ainsert (d : List (List PyVal × List (String × PyVal)))
    (k : List PyVal) (v : List (String × PyVal)) :
    keysPreserved d (ainsert d k v) :=
  fun k2 h => (isSome_alookup_ainsert d k k2 v).mpr (Or.inr h)

theorem keysPreserved_foldl (pv : List PyVal) (rc : Nat)
    (avs : List (PyVal × List (String × PyVal))) :
    ∀ d, keysPreserved d
      (avs.foldl (fun acc kv =>
        ainsert acc (pv ++ [PyVal.int rc, kv.1]) kv.2) d) := by
  induction avs with
  | nil => intro d; exact keysPreserved_refl d
  | cons a rest ih =>
      intro d
      exact keysPreserved_trans (keysPreserved_ainsert d _ _) (ih _)

theorem collectModelStep_empty {σ α : Type} (br : BatchRunner σ α)
    (pv : List PyVal) (m : σ) (rc : Nat) (st : Stores)
    (h : br.modelReporters.isEmpty = true) :
    collectModelStep br pv m rc st = (st, none) := by
  unfold collectModelStep
  rw [if_pos h]

theorem collectModelStep_err {σ α : Type} (br : BatchRunner σ α)
    (pv : List PyVal) (m : σ) (rc : Nat) (st : Stores) (e : PyErr)
    (h : ¬ br.modelReporters.isEmpty = true)
    (hcv : collectModelVars br m = Except.error e) :
    collectModelStep br pv m rc st = (st, some e) := by
  unfold collectModelStep
  rw [if_neg h, hcv]

theorem collectModelStep_ok {σ α : Type} (br : BatchRunner σ α)
    (pv : List PyVal) (m : σ) (rc : Nat) (st : Stores)
    (mv : List (String × PyVal))
    (h : ¬ br.modelReporters.isEmpty = true)
    (hcv : collectModelVars br m = Except.ok mv) :
    collectModelStep br pv m rc st =
      ({ st with modelVars :=
          ainsert st.modelVars (pv ++ [PyVal.int rc]) mv }, none) := by
  unfold collectModelStep
  rw [if_neg h, hcv]

theorem collectAgentStep_empty {σ α : Type} (br : BatchRunner σ α)
    (pv : List PyVal) (m : σ) (rc : Nat) (st : Stores)
    (h : br.agentReporters.isEmpty = true) :
    collectAgentStep br pv m rc st = (st, none) := by
  unfold collectAgentStep
  rw [if_pos h]

theorem collectAgentStep_err {σ α : Type} (br : BatchRunner σ α)
    (pv : List PyVal) (m : σ) (rc : Nat) (st : Stores) (e : PyErr)
    (h : ¬ br.agentReporters.isEmpty = true)
    (hcv : collectAgentVars br m = Except.error e) :
    collectAgentStep br pv m rc st = (st, some e) := by
  unfold collectAgentStep
  rw [if_neg h, hcv]

theorem collectAgentStep_ok {σ α : Type} (br : BatchRunner σ α)
    (pv : List PyVal) (m : σ) (rc : Nat) (st : Stores)
    (avs : List (PyVal × List (String × PyVal)))
    (h : ¬ br.agentReporters.isEmpty = true)
    (hcv : collectAgentVars br m = Except.ok avs) :
    collectAgentStep br pv m rc st =
      ({ st with agentVars :=
          (avs.foldl
            (fun acc kv =>
              ainsert acc (pv ++ [PyVal.int rc, kv.1]) kv.2)
            st.agentVars) }, none) := by
  unfold collectAgentStep
  rw [if_neg h, hcv]

theorem collectModelStep_kp {σ α : Type} (br : BatchRunner σ α)
    (pv : List PyVal) (m : σ) (rc : Nat) (st : Stores) :
    keysPreserved st.modelVars
      (collectModelStep br pv m rc st).1.modelVars ∧
    (collectModelStep br pv m rc st).1.agentVars = st.agentVars := by
  by_cases h : br.modelReporters.isEmpty = true
  · rw [collectModelStep_empty br pv m rc st h]
    exact ⟨keysPreserved_refl _, rfl⟩
  · cases hcv : collectModelVars br m with
    | error e =>
        rw [collectModelStep_err br pv m rc st e h hcv]
        exact ⟨keysPreserved_refl _, rfl⟩
    | ok mv =>
        rw [collectModelStep_ok br pv m rc st mv h hcv]
        exact ⟨keysPreserved_ainsert _ _ _, rfl⟩

theorem collectAgentStep_kp {σ α : Type} (br : BatchRunner σ α)
    (pv : List PyVal) (m : σ) (rc : Nat) (st : Stores) :
    keysPreserved st.agentVars
      (collectAgentStep br pv m rc st).1.agentVars ∧
    (collectAgentStep br pv m rc st).1.modelVars = st.modelVars := by
  by_cases h : br.agentReporters.isEmpty = true
  · rw [collectAgentStep_empty br pv m rc st h]
    exact ⟨keysPreserved_refl _, rfl⟩
  · cases hcv : collectAgentVars br m with
    | error e =>
        rw [collectAgentStep_err br pv m rc st e h hcv]
        exact ⟨keysPreserved_refl _, rfl⟩
    | ok avs =>
        rw [collectAgentStep_ok br pv m rc st avs h hcv]
        exact ⟨keysPreserved_foldl pv rc avs st.agentVars, rfl⟩

theorem innerLoop_kp {σ α : Type} (br : BatchRunner σ α)
    (pv : List PyVal) :
    ∀ (k : Nat) (m : σ) (rc : Nat) (st : Stores),
      keysPreserved st.modelVars
        (innerLoop br pv k m rc st).2.2.1.modelVars ∧
      keysPreserved st.agentVars
        (innerLoop br pv k m rc st).2.2.1.agentVars := by
  intro k
  induction k with
  | zero => intro m rc st; exact ⟨keysPreserved_refl _, keysPreserved_refl _⟩
  | succ k ih =>
      intro m rc st
      have hm := collectModelStep_kp br pv (runModel br.pm br.maxSteps m)
        rc st
      rcases hms : collectModelStep br pv (runModel br.pm br.maxSteps m)
          rc st with ⟨st1, e1⟩
      rw [hms] at hm
      cases e1 with
      | some e =>
          rw [innerLoop_succ_modelErr br pv k m rc st st1 e hms]
          exact ⟨hm.1, hm.2 ▸ keysPreserved_refl _⟩
      | none =>
          have ha := collectAgentStep_kp br pv (runModel br.pm br.maxSteps m)
            rc st1
          rcases has : collectAgentStep br pv (runModel br.pm br.maxSteps m)
              rc st1 with ⟨st2, e2⟩
          rw [has] at ha
          cases e2 with
          | some e =>
              rw [innerLoop_succ_agentErr br pv k m rc st st1 st2 e hms has]
              refine ⟨?_, ?_⟩
              · exact fun k2 h => (ha.2 ▸ hm.1) k2 h
              · exact fun k2 h => ha.1 k2 ((hm.2 ▸ h : _))
          | none =>
              rw [innerLoop_succ_ok br pv k m rc st st1 st2 hms has]
              have hrec := ih (runModel br.pm br.maxSteps m) (rc + 1) st2
              refine ⟨?_, ?_⟩
              · exact keysPreserved_trans
                  (fun k2 h => ha.2 ▸ hm.1 k2 h) hrec.1
              · exact keysPreserved_trans
                  (fun k2 h => ha.1 k2 (hm.2 ▸ h)) hrec.2

theorem outerLoop_kp {σ α : Type} (br : BatchRunner σ α) :
    ∀ (pvs : List (List PyVal)) (rc : Nat) (st : Stores),
      keysPreserved st.modelVars
        (outerLoop br pvs rc st).2.1.modelVars ∧
      keysPreserved st.agentVars
        (outerLoop br pvs rc st).2.1.agentVars := by
  intro pvs
  induction pvs with
  | nil =>
      intro rc st
      exact ⟨keysPreserved_refl _, keysPreserved_refl _⟩
  | cons pv rest ih =>
      intro rc st
      rcases hinit : tryToInitModel br
          (zipToDict (br.parameterValues.map Prod.fst) pv) with e | m
      · rw [outerLoop_cons_initErr br pv rest rc st e hinit]
        exact ⟨keysPreserved_refl _, keysPreserved_refl _⟩
      · have hil2 := innerLoop_kp br pv br.iterations m rc st
        rcases hil : innerLoop br pv br.iterations m rc st with
          ⟨m2, rc2, st2, e2⟩
        rw [hil] at hil2
        cases e2 with
        | some e =>
            rw [outerLoop_cons_innerErr br pv rest rc st m m2 rc2 st2 e
              hinit hil]
            exact hil2
        | none =>
            rw [outerLoop_cons_innerOk br pv rest rc st m m2 rc2 st2
              hinit hil]
            have hrec := ih rc2 st2
            exact ⟨keysPreserved_trans hil2.1 hrec.1,
              keysPreserved_trans hil2.2 hrec.2⟩

theorem runAll_eq {σ α : Type} (br : BatchRunner σ α) (st : Stores) :
    runAll br st =
      ((outerLoop br (cartProduct br.paramRanges) 0 st).2.1,
       (outerLoop br (cartProduct br.paramRanges) 0 st).2.2) := by
  unfold runAll
  rcases h : outerLoop br (cartProduct br.paramRanges) 0 st with
    ⟨rc, st2, e⟩
  rfl

/-- C2 counterexample: `run_count` is a local variable restarting at 0 in
every `run_all` call, so a second invocation writes the same record key
`(1, 0)` again; with one configuration and one iteration the store still
holds exactly one record afterwards instead of a second one under a
continuing run number. -/
theorem claim_C2_counterexample :
    (runAll brOnce ((runAll brOnce ⟨[], []⟩).1)).1 =
      (runAll brOnce ⟨[], []⟩).1 ∧
    (runAll brOnce ⟨[], []⟩).1.modelVars.length = 1 :=
  ⟨rfl, rfl⟩

/-- C2 (amended): a second `run_all` invocation restarts its
run-sequence-number at 0 and writes through the same record keys,
replacing the stored records at colliding keys rather than appending under
continuing numbers; the stores are never cleared — every key present
before an invocation is still present afterwards. -/
theorem claim_C2_store_growth :
    (∀ (σ α : Type) (br : BatchRunner σ α) (st : Stores),
      keysPreserved st.modelVars (runAll br st).1.modelVars ∧
      keysPreserved st.agentVars (runAll br st).1.agentVars) ∧
    (runAll brOnce ((runAll brOnce ⟨[], []⟩).1)).1.modelVars.map Prod.fst =
      [[PyVal.int 1, PyVal.int 0]] := by
  refine ⟨?_, rfl⟩
  intro σ α br st
  rw [runAll_eq]
  exact outerLoop_kp br (cartProduct br.paramRanges) 0 st

theorem claim_C2_store_growth_witness :
    (alookup [PyVal.int 9]
      (runAll brOnce ⟨[([PyVal.int 9], [])], []⟩).1.modelVars).isSome =
      true :=
  (claim_C2_store_growth.1 (Nat × Bool) Unit brOnce
    ⟨[([PyVal.int 9], [])], []⟩).1 [PyVal.int 9] rfl

/-- C6 counterexample: when an entity-level reporter raises, the model-level
record of the failing run has already been stored; the sweep aborts with
the failing run's model-level record present, not with stores containing
only the runs strictly before it. -/
theorem claim_C6_counterexample :
    (runAll brAgentFail ⟨[], []⟩).2 =
      some (PyErr.reporterFailure "boom") ∧
    (runAll brAgentFail ⟨[], []⟩).1.modelVars.map Prod.fst =
      [[PyVal.int 1, PyVal.int 0]] :=
  ⟨rfl, rfl⟩

/-- C6 (amended): a raising reporter is not caught — the sweep aborts at
once with the stores as already mutated: a model-level reporter failure
leaves both stores exactly as before the failing run; an entity-level
reporter failure additionally leaves the failing run's model-level record
(the model reporters having already run); an aborted inner loop aborts the
whole sweep with those stores. -/
theorem claim_C6_reporter_failure :
    (∀ (σ α : Type) (br : BatchRunner σ α) (pv : List PyVal) (k : Nat)
        (m : σ) (rc : Nat) (st : Stores) (e : PyErr),
      br.modelReporters ≠ [] →
      collectModelVars br (runModel br.pm br.maxSteps m) =
        Except.error e →
      innerLoop br pv (k + 1) m rc st =
        (runModel br.pm br.maxSteps m, rc, st, some e)) ∧
    (∀ (σ α : Type) (br : BatchRunner σ α) (pv : List PyVal) (k : Nat)
        (m : σ) (rc : Nat) (st : Stores) (mv : List (String × PyVal))
        (e : PyErr),
      br.modelReporters ≠ [] →
      collectModelVars br (runModel br.pm br.maxSteps m) = Except.ok mv →
      br.agentReporters ≠ [] →
      collectAgentVars br (runModel br.pm br.maxSteps m) =
        Except.error e →
      innerLoop br pv (k + 1) m rc st =
        (runModel br.pm br.maxSteps m, rc,
         { st with modelVars :=
             ainsert st.modelVars (pv ++ [PyVal.int rc]) mv },
         some e)) ∧
    (∀ (σ α : Type) (br : BatchRunner σ α) (pv : List PyVal)
        (rest : List (List PyVal)) (rc : Nat) (st : Stores) (m m2 : σ)
        (rc2 : Nat) (st2 : Stores) (e : PyErr),
      tryToInitModel br
        (zipToDict (br.parameterValues.map Prod.fst) pv) = Except.ok m →
      innerLoop br pv br.iterations m rc st = (m2, rc2, st2, some e) →
      outerLoop br (pv :: rest) rc st = (rc2, st2, some e)) := by
  refine ⟨?_, ?_, ?_⟩
  · intro σ α br pv k m rc st e hne hcv
    have hie : ¬ br.modelReporters.isEmpty = true := by
      rw [isEmpty_false_of_ne_nil hne]
      simp
    exact innerLoop_succ_modelErr br pv k m rc st st e
      (collectModelStep_err br pv (runModel br.pm br.maxSteps m) rc st e
        hie hcv)
  · intro σ α br pv k m rc st mv e hne hcv hane hcav
    have hie : ¬ br.modelReporters.isEmpty = true := by
      rw [isEmpty_false_of_ne_nil hne]
      simp
    have haie : ¬ br.agentReporters.isEmpty = true := by
      rw [isEmpty_false_of_ne_nil hane]
      simp
    exact innerLoop_succ_agentErr br pv k m rc st
      { st with modelVars :=
          ainsert st.modelVars (pv ++ [PyVal.int rc]) mv }
      { st with modelVars :=
          ainsert st.modelVars (pv ++ [PyVal.int rc]) mv }
      e
      (collectModelStep_ok br pv (runModel br.pm br.maxSteps m) rc st mv
        hie hcv)
      (collectAgentStep_err br pv (runModel br.pm br.maxSteps m) rc _ e
        haie hcav)
  · intro σ α br pv rest rc st m m2 rc2 st2 e hinit hil
    exact outerLoop_cons_innerErr br pv rest rc st m m2 rc2 st2 e hinit hil

theorem claim_C6_reporter_failure_witness :
    innerLoop brModelFail [PyVal.int 1] 1 (0, true) 0 ⟨[], []⟩ =
      ((5, true), 0, ⟨[], []⟩, some (PyErr.reporterFailure "boom")) ∧
    innerLoop brAgentFail [PyVal.int 1] 1 (0, true) 0 ⟨[], []⟩ =
      ((5, true), 0,
       ⟨[([PyVal.int 1, PyVal.int 0], [("m", PyVal.int 5)])], []⟩,
       some (PyErr.reporterFailure "boom")) ∧
    outerLoop brAgentFail [[PyVal.int 1]] 0 ⟨[], []⟩ =
      (0, ⟨[([PyVal.int 1, PyVal.int 0], [("m", PyVal.int 5)])], []⟩,
       some (PyErr.reporterFailure "boom")) :=
  ⟨(claim_C6_reporter_failure.1 (Nat × Bool) Unit brModelFail [PyVal.int 1]
      0 (0, true) 0 ⟨[], []⟩ (PyErr.reporterFailure "boom")
      (fun h => List.noConfusion h) rfl).trans rfl,
   (claim_C6_reporter_failure.2.1 (Nat × Bool) Unit brAgentFail
      [PyVal.int 1] 0 (0, true) 0 ⟨[], []⟩ [("m", PyVal.int 5)]
      (PyErr.reporterFailure "boom") (fun h => List.noConfusion h) rfl
      (fun h => List.noConfusion h) rfl).trans rfl,
   claim_C6_reporter_failure.2.2 (Nat × Bool) Unit brAgentFail
      [PyVal.int 1] [] 0 ⟨[], []⟩ (0, true) (5, true) 0
      ⟨[([PyVal.int 1, PyVal.int 0], [("m", PyVal.int 5)])], []⟩
      (PyErr.reporterFailure "boom") rfl rfl⟩

theorem mem_dedupStr (a : String) : ∀ l : List String, a ∈ dedupStr l ↔ a ∈ l
  | [] => Iff.rfl
  | c :: rest => by
      by_cases h : a = c
      · subst h
        simp [dedupStr]
      · simp only [dedupStr, List.mem_cons, h, false_or, List.mem_filter,
          mem_dedupStr a rest, Bool.not_eq_eq_eq_not, Bool.not_true,
          beq_eq_false_iff_ne, ne_eq, h, not_false_eq_true, and_true]

theorem nodup_dedupStr : ∀ l : List String, (dedupStr l).Nodup
  | [] => List.nodup_nil
  | c :: rest => by
      simp only [dedupStr, List.nodup_cons]
      constructor
      · intro hc
        have := (List.mem_filter.mp hc).2
        simp at this
      · exact (nodup_dedupStr rest).filter _

theorem alookup_dupdate_nil_nodup {κ β : Type} [DecidableEq κ]
    (l : List (κ × β)) (hnd : (l.map Prod.fst).Nodup) (k : κ) :
    alookup k (dupdate ([] : List (κ × β)) l) = alookup k l := by
  cases h : alookup k l with
  | some v => exact alookup_dupdate_mem_nodup l [] k v hnd h
  | none =>
      rw [alookup_dupdate_not_mem l [] k]
      · rfl
      · intro hc
        rw [← isSome_alookup_iff_mem] at hc
        rw [h] at hc
        exact Bool.noConfusion hc

theorem mem_keys_zipToDict {κ β : Type} [DecidableEq κ] (names : List κ)
    (vals : List β) (c : κ)
    (h : c ∈ (zipToDict names vals).map Prod.fst) : c ∈ names := by
  unfold zipToDict at h
  rw [← isSome_alookup_iff_mem, isSome_alookup_dupdate] at h
  rcases h with h | h
  · exact absurd h (by simp [alookup])
  · rcases List.mem_map.mp h with ⟨kv, hkv, hfst⟩
    have := List.of_mem_zip hkv
    rw [← hfst]
    exact this.1

theorem alookup_zipToDict_snoc {κ β : Type} [DecidableEq κ]
    (names : List κ) (vals : List β) (k : κ) (v : β)
    (hnd : names.Nodup) (hk : k ∉ names)
    (hlen : names.length = vals.length) :
    alookup k (zipToDict (names ++ [k]) (vals ++ [v])) = some v := by
  unfold zipToDict
  have hzip : (names ++ [k]).zip (vals ++ [v]) =
      names.zip vals ++ [(k, v)] := List.zip_append hlen
  rw [hzip]
  have hkeys : (names.zip vals).map Prod.fst = names :=
    List.map_fst_zip names vals (le_of_eq hlen)
  have hndall : ((names.zip vals ++ [(k, v)]).map Prod.fst).Nodup := by
    rw [List.map_append, hkeys]
    refine List.nodup_append.mpr ⟨hnd, List.nodup_singleton k, ?_⟩
    intro x hx hx2
    simp only [List.map_cons, List.map_nil, List.mem_singleton] at hx2
    exact hk (hx2 ▸ hx)
  rw [alookup_dupdate_nil_nodup _ hndall, alookup_append]
  have hnone : alookup k (names.zip vals) = none := by
    apply alookup_eq_none_of_not_mem
    rw [hkeys]
    exact hk
  rw [hnone]
  simp [alookup]

theorem mem_keys_processRecord (idx : List String) (key : List PyVal)
    (v : List (String × PyVal)) (c : String) :
    c ∈ (processRecord idx key v).map Prod.fst ↔
      c ∈ (zipToDict idx key).map Prod.fst ∨ c ∈ v.map Prod.fst := by
  unfold processRecord
  rw [← isSome_alookup_iff_mem, isSome_alookup_dupdate,
    isSome_alookup_iff_mem]

theorem alookup_processRecord_none (idx : List String) (key : List PyVal)
    (v : List (String × PyVal)) (c : String)
    (hv : c ∉ v.map Prod.fst) (hidx : c ∉ idx) :
    alookup c (processRecord idx key v) = none := by
  unfold processRecord
  rw [alookup_dupdate_not_mem v _ c hv]
  apply alookup_eq_none_of_not_mem
  intro hc
  exact hidx (mem_keys_zipToDict idx key c hc)

theorem alookup_processRecord_run (paramNames : List String)
    (pvs : List PyVal) (n : Int) (v : List (String × PyVal))
    (hnd : paramNames.Nodup) (hrun : "Run" ∉ paramNames)
    (hlen : paramNames.length = pvs.length)
    (hv : "Run" ∉ v.map Prod.fst) :
    alookup "Run"
      (processRecord (paramNames ++ ["Run"]) (pvs ++ [PyVal.int n]) v) =
      some (PyVal.int n) := by
  unfold processRecord
  rw [alookup_dupdate_not_mem v _ _ hv]
  exact alookup_zipToDict_snoc paramNames pvs "Run" (PyVal.int n) hnd hrun
    hlen

/-- C5 counterexample: a reporter named `Run` collides with the index
column of the same name; `set(df.columns) - set(index_cols)` removes it, so
the table's non-index columns are *not* the union of the observation keys
(the union contains `Run`, the non-index columns are empty). -/
theorem claim_C5_counterexample :
    (prepareReportTable ["a", "Run"] runNamedStore).columns =
      ["a", "Run"] ∧
    "Run" ∈ runNamedStore.flatMap (fun kv => kv.2.map Prod.fst) ∧
    ¬ ∃ rest,
        (prepareReportTable ["a", "Run"] runNamedStore).columns =
          ["a", "Run"] ++ rest ∧
        (∀ c, c ∈ rest ↔
          c ∈ runNamedStore.flatMap (fun kv => kv.2.map Prod.fst)) := by
  refine ⟨rfl, by decide, ?_⟩
  rintro ⟨rest, hcols, hmem⟩
  have hc : (["a", "Run"] : List String) = ["a", "Run"] ++ rest :=
    (show (prepareReportTable ["a", "Run"] runNamedStore).columns =
      ["a", "Run"] from rfl).symm.trans hcols
  have hlen := congrArg List.length hc
  simp only [List.length_append, List.length_cons, List.length_nil] at hlen
  have hrest : rest = [] := List.eq_nil_of_length_eq_zero (by omega)
  subst hrest
  have h2 := (hmem "Run").mpr (by decide)
  exact absurd h2 (List.not_mem_nil "Run")

/-- C5 (amended): for a store whose observation keys avoid the index-column
names (and whose record keys have the shape `run_all` produces), the report
places after the index columns exactly the union of the observation keys,
each once, lexicographically sorted; the rows are a permutation of the
records, sorted ascending by their integer `Run` cells; and a record
missing a reporter key yields an absent cell (the missing-value marker),
not an error.  When a reporter key collides with an index column the
column-set equation fails (see the counterexample). -/
theorem claim_C5_report_builder (paramNames : List String)
    (varsDict : List (List PyVal × List (String × PyVal)))
    (hnd : paramNames.Nodup) (hrun : "Run" ∉ paramNames)
    (hkeys : ∀ kv ∈ varsDict, ∃ pvs n, kv.1 = pvs ++ [PyVal.int n] ∧
      paramNames.length = pvs.length)
    (hobs : ∀ kv ∈ varsDict, ∀ c ∈ kv.2.map Prod.fst,
      c ∉ paramNames ∧ c ≠ "Run")
    (_hne : varsDict ≠ []) :
    (∃ rest,
      (prepareReportTable (paramNames ++ ["Run"]) varsDict).columns =
        (paramNames ++ ["Run"]) ++ rest ∧
      List.Sorted (fun a b => a ≤ b) rest ∧ rest.Nodup ∧
      (∀ c, c ∈ rest ↔ ∃ kv, kv ∈ varsDict ∧ c ∈ kv.2.map Prod.fst)) ∧
    List.Perm (prepareReportTable (paramNames ++ ["Run"]) varsDict).rows
      (varsDict.map (fun kv =>
        processRecord (paramNames ++ ["Run"]) kv.1 kv.2)) ∧
    List.Sorted (fun a b => a ≤ b)
      ((prepareReportTable (paramNames ++ ["Run"]) varsDict).rows.map
        runOf) ∧
    (∀ row ∈ (prepareReportTable (paramNames ++ ["Run"]) varsDict).rows,
      ∃ n : Int, alookup "Run" row = some (PyVal.int n)) ∧
    (∀ kv ∈ varsDict, ∀ c, c ∉ kv.2.map Prod.fst →
      c ∉ paramNames ++ ["Run"] →
      alookup c (processRecord (paramNames ++ ["Run"]) kv.1 kv.2) =
        none) := by
  haveI hT1 : IsTotal String (fun a b => a ≤ b) := ⟨fun a b => le_total a b⟩
  haveI hT2 : IsTrans String (fun a b => a ≤ b) :=
    ⟨fun _ _ _ h1 h2 => le_trans h1 h2⟩
  haveI hT3 : IsTotal (List (String × PyVal)) rowLE :=
    ⟨fun a b => Int.le_total (runOf a) (runOf b)⟩
  haveI hT4 : IsTrans (List (String × PyVal)) rowLE :=
    ⟨fun _ _ _ h1 h2 => le_trans h1 h2⟩
  refine ⟨⟨List.insertionSort (fun a b => a ≤ b)
      ((dedupStr ((varsDict.map (fun kv =>
          processRecord (paramNames ++ ["Run"]) kv.1 kv.2)).flatMap
        (fun r => r.map Prod.fst))).filter
        (fun c => !(paramNames ++ ["Run"]).contains c)),
      rfl, List.sorted_insertionSort _ _, ?_, ?_⟩,
    List.perm_insertionSort _ _, ?_, ?_, ?_⟩
  · exact ((List.perm_insertionSort _ _).symm).nodup
      ((nodup_dedupStr _).filter _)
  · intro c
    rw [List.mem_insertionSort, List.mem_filter]
    constructor
    · rintro ⟨hmemd, hfilt⟩
      rw [mem_dedupStr] at hmemd
      rcases List.mem_flatMap.mp hmemd with ⟨r, hr, hcr⟩
      rcases List.mem_map.mp hr with ⟨kv, hkv, hrec⟩
      rw [← hrec] at hcr
      rcases (mem_keys_processRecord _ _ _ _).mp hcr with h1 | h1
      · exfalso
        have hin := mem_keys_zipToDict _ _ _ h1
        simp at hfilt
        rcases List.mem_append.mp hin with h2 | h2
        · exact hfilt.1 h2
        · exact hfilt.2 (List.mem_singleton.mp h2)
      · exact ⟨kv, hkv, h1⟩
    · rintro ⟨kv, hkv, hc⟩
      constructor
      · rw [mem_dedupStr]
        refine List.mem_flatMap.mpr
          ⟨processRecord (paramNames ++ ["Run"]) kv.1 kv.2,
           List.mem_map.mpr ⟨kv, hkv, rfl⟩, ?_⟩
        exact (mem_keys_processRecord _ _ _ _).mpr (Or.inr hc)
      · have hd := hobs kv hkv c hc
        simp
        exact hd
  · exact List.Pairwise.map runOf (fun a b h => h)
      (List.sorted_insertionSort rowLE _)
  · intro row hrow
    rw [show (prepareReportTable (paramNames ++ ["Run"]) varsDict).rows =
        List.insertionSort rowLE (varsDict.map (fun kv =>
          processRecord (paramNames ++ ["Run"]) kv.1 kv.2)) from rfl,
      List.mem_insertionSort] at hrow
    rcases List.mem_map.mp hrow with ⟨kv, hkv, hrec⟩
    rcases hkeys kv hkv with ⟨pvs, n, hkey, hlen⟩
    have hvrun : "Run" ∉ kv.2.map Prod.fst := by
      intro hc
      exact (hobs kv hkv "Run" hc).2 rfl
    refine ⟨n, ?_⟩
    rw [← hrec, hkey]
    exact alookup_processRecord_run paramNames pvs n kv.2 hnd hrun hlen
      hvrun
  · intro kv _ c hc hcidx
    exact alookup_processRecord_none _ _ _ _ hc hcidx

theorem claim_C5_report_builder_witness :
    List.Sorted (fun a b => a ≤ b)
      ((prepareReportTable ["a", "Run"] twoRecordStore).rows.map runOf) ∧
    (∀ row ∈ (prepareReportTable ["a", "Run"] twoRecordStore).rows,
      ∃ n : Int, alookup "Run" row = some (PyVal.int n)) := by
  have h := claim_C5_report_builder ["a"] twoRecordStore (by decide)
    (by decide)
    (by
      intro kv hkv
      rcases List.mem_cons.mp hkv with h1 | h1
      · subst h1
        exact ⟨[PyVal.int 1], 1, rfl, rfl⟩
      · rcases List.mem_cons.mp h1 with h2 | h2
        · subst h2
          exact ⟨[PyVal.int 1], 0, rfl, rfl⟩
        · exact absurd h2 (List.not_mem_nil kv))
    (by decide) (fun hc => List.noConfusion hc)
  exact ⟨h.2.2.1, h.2.2.2.1⟩
